import Mathlib

/-!
Verification of the padded-transformation module (`padtransf.py` and the
legacy `padTransf.py`), which provides `warpPerspectivePadded` and
`warpAffinePadded`: padded variants of the OpenCV warp primitives.

Shallow embedding notes:
* images are height/width plus a pixel function over ℚ values;
* matrices carry dynamic shape (rows, cols, total entry function over ℚ),
  mirroring numpy arrays, so the shape asserts can be modelled;
* all real arithmetic of the source is carried out in ℚ;
* the external OpenCV resampling primitives (`cv2.warpPerspective`,
  `cv2.warpAffine`) are black boxes per the design (§1, §6 of the spec), so
  the embedded functions take the resampling primitive as a parameter;
* `cv2.copyMakeBorder` and `np.pad` are embedded concretely, since the
  padding geometry is part of the verified surface.
-/

/-- OpenCV flag constant `cv2.INTER_NEAREST`. -/
def INTER_NEAREST : ℤ := 0

/-- OpenCV flag constant `cv2.INTER_LINEAR`. -/
def INTER_LINEAR : ℤ := 1

/-- OpenCV flag constant `cv2.WARP_INVERSE_MAP`. -/
def WARP_INVERSE_MAP : ℤ := 16

/-- An image: a 2D array of pixel samples (single channel, values in ℚ). -/
structure Image where
  height : Nat
  width : Nat
  pixel : Nat → Nat → ℚ

/-- Border fill policy of the padding primitive. -/
inductive BorderMode where
  | constant : BorderMode
  | replicate : BorderMode
deriving DecidableEq

/-- A numpy-style real matrix: dynamic shape with a total entry function. -/
structure Mat where
  rows : Nat
  cols : Nat
  entry : Nat → Nat → ℚ

/-- Clamp an integer index into `[0, n-1]`, as edge replication does. -/
def clampIdx (n : Nat) (i : ℤ) : Nat := (max 0 (min i ((n : ℤ) - 1))).toNat

/-- Embedding of `cv2.copyMakeBorder`: pad an image on each side, filling
the border according to the mode (constant value, or edge replication). -/
def copyMakeBorder (img : Image) (top bottom left right : Nat)
    (mode : BorderMode) (value : ℚ) : Image where
  height := img.height + top + bottom
  width := img.width + left + right
  pixel := fun y x =>
    if top ≤ y ∧ y < top + img.height ∧ left ≤ x ∧ x < left + img.width then
      img.pixel (y - top) (x - left)
    else
      match mode with
      | .constant => value
      | .replicate =>
          img.pixel (clampIdx img.height ((y : ℤ) - top))
            (clampIdx img.width ((x : ℤ) - left))

/-- Embedding of `np.pad(dst, pad_widths, mode='constant', constant_values=0)`
as used by the legacy `padTransf.py`: zero fill, regardless of any border
mode the caller supplied. -/
def npPadConstantZero (img : Image) (top bottom left right : Nat) : Image where
  height := img.height + top + bottom
  width := img.width + left + right
  pixel := fun y x =>
    if top ≤ y ∧ y < top + img.height ∧ left ≤ x ∧ x < left + img.width then
      img.pixel (y - top) (x - left)
    else 0

/-- Type of the external resampling primitives (`cv2.warpPerspective`,
`cv2.warpAffine`): source image, transform, output size `(width, height)`,
flags, border mode, border value → output image. -/
def WarpFn : Type := Image → Mat → Nat × Nat → ℤ → BorderMode → ℚ → Image

/-- Error raised by the shape asserts. -/
inductive WarpError where
  | shapeError : WarpError
deriving DecidableEq

/-! ### Matrix algebra (the external linear-algebra collaborators) -/

/-- `M / M[2,2]` — normalization of a homography (line `M = M / M[2, 2]`). -/
def normalize3 (M : Mat) : Mat :=
  ⟨3, 3, fun i j => M.entry i j / M.entry 2 2⟩

/-- Determinant of the 3×3 block. -/
def det3 (M : Mat) : ℚ :=
  M.entry 0 0 * (M.entry 1 1 * M.entry 2 2 - M.entry 1 2 * M.entry 2 1)
    - M.entry 0 1 * (M.entry 1 0 * M.entry 2 2 - M.entry 1 2 * M.entry 2 0)
    + M.entry 0 2 * (M.entry 1 0 * M.entry 2 1 - M.entry 1 1 * M.entry 2 0)

/-- General 3×3 matrix inverse via the adjugate, the mathematical content of
`cv2.invert(M)[1]` for an invertible `M`. -/
def invert3 (M : Mat) : Mat :=
  ⟨3, 3, fun i j =>
    (if i = 0 ∧ j = 0 then M.entry 1 1 * M.entry 2 2 - M.entry 1 2 * M.entry 2 1
     else if i = 0 ∧ j = 1 then -(M.entry 0 1 * M.entry 2 2 - M.entry 0 2 * M.entry 2 1)
     else if i = 0 ∧ j = 2 then M.entry 0 1 * M.entry 1 2 - M.entry 0 2 * M.entry 1 1
     else if i = 1 ∧ j = 0 then -(M.entry 1 0 * M.entry 2 2 - M.entry 1 2 * M.entry 2 0)
     else if i = 1 ∧ j = 1 then M.entry 0 0 * M.entry 2 2 - M.entry 0 2 * M.entry 2 0
     else if i = 1 ∧ j = 2 then -(M.entry 0 0 * M.entry 1 2 - M.entry 0 2 * M.entry 1 0)
     else if i = 2 ∧ j = 0 then M.entry 1 0 * M.entry 2 1 - M.entry 1 1 * M.entry 2 0
     else if i = 2 ∧ j = 1 then -(M.entry 0 0 * M.entry 2 1 - M.entry 0 1 * M.entry 2 0)
     else if i = 2 ∧ j = 2 then M.entry 0 0 * M.entry 1 1 - M.entry 0 1 * M.entry 1 0
     else 0) / det3 M⟩

/-- 3×3 matrix product (the `dot` of two 3×3 numpy arrays). -/
def mul3 (A B : Mat) : Mat :=
  ⟨3, 3, fun i j =>
    A.entry i 0 * B.entry 0 j + A.entry i 1 * B.entry 1 j
      + A.entry i 2 * B.entry 2 j⟩

/-- The translation matrix built from `np.eye(3, 3)` with
`transl_transf[0, 2] += anchor_x` and `transl_transf[1, 2] += anchor_y`
(the `+=` only fires when the anchor is nonzero, so performing it
unconditionally is the same matrix). -/
def translTransf (ax ay : ℤ) : Mat :=
  ⟨3, 3, fun i j =>
    (if i = j then (1 : ℚ) else 0)
      + (if i = 0 ∧ j = 2 then (ax : ℚ) else 0)
      + (if i = 1 ∧ j = 2 then (ay : ℚ) else 0)⟩

/-- Determinant of the 2×2 linear part of a 2×3 affine matrix. -/
def det2 (M : Mat) : ℚ :=
  M.entry 0 0 * M.entry 1 1 - M.entry 0 1 * M.entry 1 0

/-- Closed-form affine inverse, the mathematical content of
`cv2.invertAffineTransform`: linear part `A⁻¹`, translation `−A⁻¹t`. -/
def invertAffineTransform (M : Mat) : Mat :=
  ⟨2, 3, fun i j =>
    (if i = 0 ∧ j = 0 then M.entry 1 1
     else if i = 0 ∧ j = 1 then -(M.entry 0 1)
     else if i = 0 ∧ j = 2 then -(M.entry 1 1 * M.entry 0 2 - M.entry 0 1 * M.entry 1 2)
     else if i = 1 ∧ j = 0 then -(M.entry 1 0)
     else if i = 1 ∧ j = 1 then M.entry 0 0
     else if i = 1 ∧ j = 2 then M.entry 1 0 * M.entry 0 2 - M.entry 0 0 * M.entry 1 2
     else 0) / det2 M⟩

/-! ### Corner projection and bounds (perspective variant) -/

/-- Homogeneous coordinate of the projection of `(x, y)` through a 3×3 `M`
(third row of `M.dot(lin_homg_pts)`). -/
def perspW (M : Mat) (x y : ℚ) : ℚ :=
  M.entry 2 0 * x + M.entry 2 1 * y + M.entry 2 2

/-- x coordinate of the projected point after the perspective divide
(`transf_lin_homg_pts /= transf_lin_homg_pts[2, :]`). -/
def perspX (M : Mat) (x y : ℚ) : ℚ :=
  (M.entry 0 0 * x + M.entry 0 1 * y + M.entry 0 2) / perspW M x y

/-- y coordinate of the projected point after the perspective divide. -/
def perspY (M : Mat) (x y : ℚ) : ℚ :=
  (M.entry 1 0 * x + M.entry 1 1 * y + M.entry 1 2) / perspW M x y

/-- `min_x = np.floor(np.min(transf_lin_homg_pts[0])).astype(int)` over the
four corners `(0,0), (w,0), (w,h), (0,h)` (clockwise from origin). -/
def perspMinX (M : Mat) (w h : ℚ) : ℤ :=
  ⌊min (perspX M 0 0) (min (perspX M w 0) (min (perspX M w h) (perspX M 0 h)))⌋

/-- `min_y = np.floor(np.min(transf_lin_homg_pts[1])).astype(int)`. -/
def perspMinY (M : Mat) (w h : ℚ) : ℤ :=
  ⌊min (perspY M 0 0) (min (perspY M w 0) (min (perspY M w h) (perspY M 0 h)))⌋

/-- `max_x = np.ceil(np.max(transf_lin_homg_pts[0])).astype(int)`. -/
def perspMaxX (M : Mat) (w h : ℚ) : ℤ :=
  ⌈max (perspX M 0 0) (max (perspX M w 0) (max (perspX M w h) (perspX M 0 h)))⌉

/-- `max_y = np.ceil(np.max(transf_lin_homg_pts[1])).astype(int)`. -/
def perspMaxY (M : Mat) (w h : ℚ) : ℤ :=
  ⌈max (perspY M 0 0) (max (perspY M w 0) (max (perspY M w h) (perspY M 0 h)))⌉

/-- `anchor_x = 0; if min_x < 0: anchor_x = -min_x`. -/
def perspAnchorX (M : Mat) (w h : ℚ) : ℤ :=
  if perspMinX M w h < 0 then -perspMinX M w h else 0

/-- `anchor_y = 0; if min_y < 0: anchor_y = -min_y`. -/
def perspAnchorY (M : Mat) (w h : ℚ) : ℤ :=
  if perspMinY M w h < 0 then -perspMinY M w h else 0

/-- `shifted_transf = transl_transf.dot(M); shifted_transf /= shifted_transf[2,2]`. -/
def perspShiftedTransf (M : Mat) (ax ay : ℤ) : Mat :=
  normalize3 (mul3 (translTransf ax ay) M)

/-- Lines 68–72: detect the inverse-map request (`flags` equal to
`WARP_INVERSE_MAP`, `INTER_LINEAR + WARP_INVERSE_MAP`, or
`INTER_NEAREST + WARP_INVERSE_MAP`), invert, and subtract the flag. -/
def perspFlagsStep (M : Mat) (flags : ℤ) : Mat × ℤ :=
  if flags = WARP_INVERSE_MAP ∨ flags = INTER_LINEAR + WARP_INVERSE_MAP
      ∨ flags = INTER_NEAREST + WARP_INVERSE_MAP then
    (invert3 M, flags - WARP_INVERSE_MAP)
  else (M, flags)

/-! ### Padding widths (shared shape of both variants) -/

/-- Top pad `anchor_y` of `pad_widths`. -/
def padTopOf (ay : ℤ) : ℤ := ay

/-- Bottom pad `max(max_y, dst_h) - dst_h` of `pad_widths`. -/
def padBottomOf (maxY : ℤ) (dstH : Nat) : ℤ := max maxY (dstH : ℤ) - (dstH : ℤ)

/-- Left pad `anchor_x` of `pad_widths`. -/
def padLeftOf (ax : ℤ) : ℤ := ax

/-- Right pad `max(max_x, dst_w) - dst_w` of `pad_widths`. -/
def padRightOf (maxX : ℤ) (dstW : Nat) : ℤ := max maxX (dstW : ℤ) - (dstW : ℤ)

/-! ### `padtransf.warpPerspectivePadded` -/

/-- Body of `warpPerspectivePadded` after the shape assert (padtransf.py
lines 67–118), with the external `cv2.warpPerspective` as parameter. -/
def warpPerspectivePaddedCore (warp : WarpFn) (src dst : Image) (M0 : Mat)
    (flags0 : ℤ) (borderMode : BorderMode) (borderValue : ℚ) :
    Image × Image :=
  let MF := perspFlagsStep (normalize3 M0) flags0
  let M := MF.1
  let flags := MF.2
  let sw : ℚ := src.width
  let sh : ℚ := src.height
  let ax := perspAnchorX M sw sh
  let ay := perspAnchorY M sw sh
  let dstPadded := copyMakeBorder dst (padTopOf ay).toNat
    (padBottomOf (perspMaxY M sw sh) dst.height).toNat (padLeftOf ax).toNat
    (padRightOf (perspMaxX M sw sh) dst.width).toNat borderMode borderValue
  let srcWarped := warp src (perspShiftedTransf M ax ay)
    (dstPadded.width, dstPadded.height) flags borderMode borderValue
  (dstPadded, srcWarped)

/-- `padtransf.warpPerspectivePadded`: asserts the (3, 3) shape, then runs
the core; returns `(dst_padded, src_warped)`. -/
def warpPerspectivePadded (warp : WarpFn) (src dst : Image) (M : Mat)
    (flags : ℤ) (borderMode : BorderMode) (borderValue : ℚ) :
    Except WarpError (Image × Image) :=
  if M.rows = 3 ∧ M.cols = 3 then
    .ok (warpPerspectivePaddedCore warp src dst M flags borderMode borderValue)
  else .error .shapeError

/-! ### Corner projection and bounds (affine variant) -/

/-- x coordinate of `transf[:, :2].dot(lin_pts) + transf[:, 2]` at `(x, y)`. -/
def affX (M : Mat) (x y : ℚ) : ℚ :=
  M.entry 0 0 * x + M.entry 0 1 * y + M.entry 0 2

/-- y coordinate of the affine image of `(x, y)`. -/
def affY (M : Mat) (x y : ℚ) : ℚ :=
  M.entry 1 0 * x + M.entry 1 1 * y + M.entry 1 2

/-- `min_x` over the four affine-projected corners. -/
def affMinX (M : Mat) (w h : ℚ) : ℤ :=
  ⌊min (affX M 0 0) (min (affX M w 0) (min (affX M w h) (affX M 0 h)))⌋

/-- `min_y` over the four affine-projected corners. -/
def affMinY (M : Mat) (w h : ℚ) : ℤ :=
  ⌊min (affY M 0 0) (min (affY M w 0) (min (affY M w h) (affY M 0 h)))⌋

/-- `max_x` over the four affine-projected corners. -/
def affMaxX (M : Mat) (w h : ℚ) : ℤ :=
  ⌈max (affX M 0 0) (max (affX M w 0) (max (affX M w h) (affX M 0 h)))⌉

/-- `max_y` over the four affine-projected corners. -/
def affMaxY (M : Mat) (w h : ℚ) : ℤ :=
  ⌈max (affY M 0 0) (max (affY M w 0) (max (affY M w h) (affY M 0 h)))⌉

/-- Affine `anchor_x = 0; if min_x < 0: anchor_x = -min_x`. -/
def affAnchorX (M : Mat) (w h : ℚ) : ℤ :=
  if affMinX M w h < 0 then -affMinX M w h else 0

/-- Affine `anchor_y = 0; if min_y < 0: anchor_y = -min_y`. -/
def affAnchorY (M : Mat) (w h : ℚ) : ℤ :=
  if affMinY M w h < 0 then -affMinY M w h else 0

/-- `shifted_transf = transf + [[0, 0, anchor_x], [0, 0, anchor_y]]`. -/
def affShiftedTransf (M : Mat) (ax ay : ℤ) : Mat :=
  ⟨2, 3, fun i j =>
    M.entry i j
      + (if i = 0 ∧ j = 2 then (ax : ℚ) else if i = 1 ∧ j = 2 then (ay : ℚ) else 0)⟩

/-- Lines 165–169: the affine inverse-map detection, using the dedicated
`cv2.invertAffineTransform` routine. -/
def affFlagsStep (M : Mat) (flags : ℤ) : Mat × ℤ :=
  if flags = WARP_INVERSE_MAP ∨ flags = INTER_LINEAR + WARP_INVERSE_MAP
      ∨ flags = INTER_NEAREST + WARP_INVERSE_MAP then
    (invertAffineTransform M, flags - WARP_INVERSE_MAP)
  else (M, flags)

/-! ### `padtransf.warpAffinePadded` -/

/-- Body of `warpAffinePadded` after the shape assert (padtransf.py lines
165–209), with the external `cv2.warpAffine` as parameter. -/
def warpAffinePaddedCore (warp : WarpFn) (src dst : Image) (M0 : Mat)
    (flags0 : ℤ) (borderMode : BorderMode) (borderValue : ℚ) :
    Image × Image :=
  let MF := affFlagsStep M0 flags0
  let M := MF.1
  let flags := MF.2
  let sw : ℚ := src.width
  let sh : ℚ := src.height
  let ax := affAnchorX M sw sh
  let ay := affAnchorY M sw sh
  let dstPadded := copyMakeBorder dst (padTopOf ay).toNat
    (padBottomOf (affMaxY M sw sh) dst.height).toNat (padLeftOf ax).toNat
    (padRightOf (affMaxX M sw sh) dst.width).toNat borderMode borderValue
  let srcWarped := warp src (affShiftedTransf M ax ay)
    (dstPadded.width, dstPadded.height) flags borderMode borderValue
  (dstPadded, srcWarped)

/-- `padtransf.warpAffinePadded`: asserts the (2, 3) shape, then runs the
core; returns `(dst_padded, src_warped)`. -/
def warpAffinePadded (warp : WarpFn) (src dst : Image) (M : Mat)
    (flags : ℤ) (borderMode : BorderMode) (borderValue : ℚ) :
    Except WarpError (Image × Image) :=
  if M.rows = 2 ∧ M.cols = 3 then
    .ok (warpAffinePaddedCore warp src dst M flags borderMode borderValue)
  else .error .shapeError

/-! ### Legacy `padTransf.py` variants

Identical geometry, but the destination is padded with
`np.pad(dst, pad_widths, mode='constant', constant_values=0)`, ignoring the
caller's `borderMode` and `borderValue` for the padding step. -/

/-- Body of legacy `padTransf.warpPerspectivePadded` after the shape assert
(padTransf.py lines 43–88). -/
def warpPerspectivePaddedLegacyCore (warp : WarpFn) (src dst : Image)
    (M0 : Mat) (flags0 : ℤ) (borderMode : BorderMode) (borderValue : ℚ) :
    Image × Image :=
  let MF := perspFlagsStep (normalize3 M0) flags0
  let M := MF.1
  let flags := MF.2
  let sw : ℚ := src.width
  let sh : ℚ := src.height
  let ax := perspAnchorX M sw sh
  let ay := perspAnchorY M sw sh
  let dstPadded := npPadConstantZero dst (padTopOf ay).toNat
    (padBottomOf (perspMaxY M sw sh) dst.height).toNat (padLeftOf ax).toNat
    (padRightOf (perspMaxX M sw sh) dst.width).toNat
  let srcWarped := warp src (perspShiftedTransf M ax ay)
    (dstPadded.width, dstPadded.height) flags borderMode borderValue
  (dstPadded, srcWarped)

/-- Legacy `padTransf.warpPerspectivePadded`. -/
def warpPerspectivePaddedLegacy (warp : WarpFn) (src dst : Image) (M : Mat)
    (flags : ℤ) (borderMode : BorderMode) (borderValue : ℚ) :
    Except WarpError (Image × Image) :=
  if M.rows = 3 ∧ M.cols = 3 then
    .ok (warpPerspectivePaddedLegacyCore warp src dst M flags borderMode
      borderValue)
  else .error .shapeError

/-- Body of legacy `padTransf.warpAffinePadded` after the shape assert
(padTransf.py lines 122–161). -/
def warpAffinePaddedLegacyCore (warp : WarpFn) (src dst : Image) (M0 : Mat)
    (flags0 : ℤ) (borderMode : BorderMode) (borderValue : ℚ) :
    Image × Image :=
  let MF := affFlagsStep M0 flags0
  let M := MF.1
  let flags := MF.2
  let sw : ℚ := src.width
  let sh : ℚ := src.height
  let ax := affAnchorX M sw sh
  let ay := affAnchorY M sw sh
  let dstPadded := npPadConstantZero dst (padTopOf ay).toNat
    (padBottomOf (affMaxY M sw sh) dst.height).toNat (padLeftOf ax).toNat
    (padRightOf (affMaxX M sw sh) dst.width).toNat
  let srcWarped := warp src (affShiftedTransf M ax ay)
    (dstPadded.width, dstPadded.height) flags borderMode borderValue
  (dstPadded, srcWarped)

/-- Legacy `padTransf.warpAffinePadded`. -/
def warpAffinePaddedLegacy (warp : WarpFn) (src dst : Image) (M : Mat)
    (flags : ℤ) (borderMode : BorderMode) (borderValue : ℚ) :
    Except WarpError (Image × Image) :=
  if M.rows = 2 ∧ M.cols = 3 then
    .ok (warpAffinePaddedLegacyCore warp src dst M flags borderMode
      borderValue)
  else .error .shapeError

/-! ### Concrete fixtures for witnesses and counterexamples -/

/-- OpenCV flag constant `cv2.INTER_CUBIC` (an interpolation mode the
module's inverse-detection tuple does not cover). -/
def INTER_CUBIC : ℤ := 2

/-- A box-membership predicate: `(x, y) ∈ [0, W] × [0, H]`. -/
def insideBox (x y W H : ℚ) : Prop := 0 ≤ x ∧ x ≤ W ∧ 0 ≤ y ∧ y ≤ H

instance (x y W H : ℚ) : Decidable (insideBox x y W H) := by
  unfold insideBox; infer_instance

/-- A stand-in resampling primitive honouring the size contract: it returns
an image of exactly the requested `(width, height)`. -/
def testWarp : WarpFn := fun _ _ sz _ _ _ => ⟨sz.2, sz.1, fun _ _ => 0⟩

/-- A 1×1 source image. -/
def testSrc : Image := ⟨1, 1, fun _ _ => 3⟩

/-- A 2×2 destination image with constant pixel value 5. -/
def testDst : Image := ⟨2, 2, fun _ _ => 5⟩

/-- The 3×3 identity homography. -/
def eyeM : Mat := ⟨3, 3, fun i j => if i = j then 1 else 0⟩

/-- The 2×3 identity affine transform. -/
def eyeA : Mat := ⟨2, 3, fun i j => if i = j then 1 else 0⟩

/-- A 3×3 homography scaling x by 2 (its inverse is not itself). -/
def scaleM : Mat := ⟨3, 3, fun i j => if i = 0 ∧ j = 0 then 2 else if i = j then 1 else 0⟩

/-- A 2×3 affine transform scaling x by 2 (its inverse is not itself). -/
def scaleA : Mat := ⟨2, 3, fun i j => if i = 0 ∧ j = 0 then 2 else if i = j then 1 else 0⟩

/-- A 3×3 homography translating by (−1, −1). -/
def transM : Mat :=
  ⟨3, 3, fun i j => if i = j then 1 else if j = 2 ∧ (i = 0 ∨ i = 1) then -1 else 0⟩

/-- A 3×3 transform whose third row is `[-1, 0, 1]`: the projected corner
`(1, 0)` of a 1×1 source has homogeneous coordinate `−1·1 + 0·0 + 1 = 0`. -/
def degM : Mat :=
  ⟨3, 3, fun i j => if i = 2 ∧ j = 0 then -1 else if i = j then 1 else 0⟩

/-! ### Helper lemmas -/

/-- The 4-way min is below its first argument. -/
lemma min4_le₀ (a b c d : ℚ) : min a (min b (min c d)) ≤ a := min_le_left _ _

/-- The 4-way min is below its second argument. -/
lemma min4_le₁ (a b c d : ℚ) : min a (min b (min c d)) ≤ b :=
  le_trans (min_le_right _ _) (min_le_left _ _)

/-- The 4-way min is below its third argument. -/
lemma min4_le₂ (a b c d : ℚ) : min a (min b (min c d)) ≤ c :=
  le_trans (min_le_right _ _) (le_trans (min_le_right _ _) (min_le_left _ _))

/-- The 4-way min is below its fourth argument. -/
lemma min4_le₃ (a b c d : ℚ) : min a (min b (min c d)) ≤ d :=
  le_trans (min_le_right _ _) (le_trans (min_le_right _ _) (min_le_right _ _))

/-- The 4-way max is above its first argument. -/
lemma le_max4₀ (a b c d : ℚ) : a ≤ max a (max b (max c d)) := le_max_left _ _

/-- The 4-way max is above its second argument. -/
lemma le_max4₁ (a b c d : ℚ) : b ≤ max a (max b (max c d)) :=
  le_trans (le_max_left _ _) (le_max_right _ _)

/-- The 4-way max is above its third argument. -/
lemma le_max4₂ (a b c d : ℚ) : c ≤ max a (max b (max c d)) :=
  le_trans (le_trans (le_max_left _ _) (le_max_right _ _)) (le_max_right _ _)

/-- The 4-way max is above its fourth argument. -/
lemma le_max4₃ (a b c d : ℚ) : d ≤ max a (max b (max c d)) :=
  le_trans (le_trans (le_max_right _ _) (le_max_right _ _)) (le_max_right _ _)

/-- The source's `if m < 0 then -m else 0` is `max 0 (-m)`. -/
lemma ite_neg_eq_max (m : ℤ) : (if m < 0 then -m else 0) = max 0 (-m) := by
  rcases lt_or_le m 0 with h | h
  · rw [if_pos h, max_eq_right (by omega)]
  · rw [if_neg (not_lt.mpr h), max_eq_left (by omega)]

/-- Anchors are nonnegative. -/
lemma ite_neg_nonneg (m : ℤ) : 0 ≤ if m < 0 then -m else 0 := by
  split <;> omega

/-- The perspective x anchor is nonnegative. -/
lemma perspAnchorX_nonneg (M : Mat) (w h : ℚ) : 0 ≤ perspAnchorX M w h :=
  ite_neg_nonneg _

/-- The perspective y anchor is nonnegative. -/
lemma perspAnchorY_nonneg (M : Mat) (w h : ℚ) : 0 ≤ perspAnchorY M w h :=
  ite_neg_nonneg _

/-- The affine x anchor is nonnegative. -/
lemma affAnchorX_nonneg (M : Mat) (w h : ℚ) : 0 ≤ affAnchorX M w h :=
  ite_neg_nonneg _

/-- The affine y anchor is nonnegative. -/
lemma affAnchorY_nonneg (M : Mat) (w h : ℚ) : 0 ≤ affAnchorY M w h :=
  ite_neg_nonneg _

/-- Bottom/right pads are nonnegative. -/
lemma padBottomOf_nonneg (m : ℤ) (n : Nat) : 0 ≤ padBottomOf m n := by
  have := le_max_right m (n : ℤ)
  unfold padBottomOf; omega

/-- Right pad nonnegativity (same computation as the bottom pad). -/
lemma padRightOf_nonneg (m : ℤ) (n : Nat) : 0 ≤ padRightOf m n := by
  have := le_max_right m (n : ℤ)
  unfold padRightOf; omega

/-- The ceiling is within 1 of its argument. -/
lemma ceil_sub_one_lt (a : ℚ) : (⌈a⌉ : ℚ) - 1 < a := by
  have := Int.ceil_lt_add_one a
  linarith

/-- C1: both variants compute `min_x`/`min_y` as the floor (round toward
negative infinity: the integer is ≤ the real extremum and within 1 of it)
of the real-valued projected minima over the four corners
`(0,0), (W,0), (W,H), (0,H)`, `max_x`/`max_y` as the ceiling of the
projected maxima, and the anchors as `max 0 (-min_x)` and `max 0 (-min_y)`. -/
theorem bounding_box_floor_ceil_and_anchors (M A : Mat) (w h : ℚ) :
    (((perspMinX M w h : ℚ) ≤
        min (perspX M 0 0) (min (perspX M w 0) (min (perspX M w h) (perspX M 0 h))) ∧
      min (perspX M 0 0) (min (perspX M w 0) (min (perspX M w h) (perspX M 0 h))) <
        (perspMinX M w h : ℚ) + 1) ∧
     ((perspMinY M w h : ℚ) ≤
        min (perspY M 0 0) (min (perspY M w 0) (min (perspY M w h) (perspY M 0 h))) ∧
      min (perspY M 0 0) (min (perspY M w 0) (min (perspY M w h) (perspY M 0 h))) <
        (perspMinY M w h : ℚ) + 1) ∧
     (max (perspX M 0 0) (max (perspX M w 0) (max (perspX M w h) (perspX M 0 h))) ≤
        (perspMaxX M w h : ℚ) ∧
      (perspMaxX M w h : ℚ) - 1 <
        max (perspX M 0 0) (max (perspX M w 0) (max (perspX M w h) (perspX M 0 h)))) ∧
     (max (perspY M 0 0) (max (perspY M w 0) (max (perspY M w h) (perspY M 0 h))) ≤
        (perspMaxY M w h : ℚ) ∧
      (perspMaxY M w h : ℚ) - 1 <
        max (perspY M 0 0) (max (perspY M w 0) (max (perspY M w h) (perspY M 0 h)))) ∧
     perspAnchorX M w h = max 0 (-perspMinX M w h) ∧
     perspAnchorY M w h = max 0 (-perspMinY M w h)) ∧
    (((affMinX A w h : ℚ) ≤
        min (affX A 0 0) (min (affX A w 0) (min (affX A w h) (affX A 0 h))) ∧
      min (affX A 0 0) (min (affX A w 0) (min (affX A w h) (affX A 0 h))) <
        (affMinX A w h : ℚ) + 1) ∧
     ((affMinY A w h : ℚ) ≤
        min (affY A 0 0) (min (affY A w 0) (min (affY A w h) (affY A 0 h))) ∧
      min (affY A 0 0) (min (affY A w 0) (min (affY A w h) (affY A 0 h))) <
        (affMinY A w h : ℚ) + 1) ∧
     (max (affX A 0 0) (max (affX A w 0) (max (affX A w h) (affX A 0 h))) ≤
        (affMaxX A w h : ℚ) ∧
      (affMaxX A w h : ℚ) - 1 <
        max (affX A 0 0) (max (affX A w 0) (max (affX A w h) (affX A 0 h)))) ∧
     (max (affY A 0 0) (max (affY A w 0) (max (affY A w h) (affY A 0 h))) ≤
        (affMaxY A w h : ℚ) ∧
      (affMaxY A w h : ℚ) - 1 <
        max (affY A 0 0) (max (affY A w 0) (max (affY A w h) (affY A 0 h)))) ∧
     affAnchorX A w h = max 0 (-affMinX A w h) ∧
     affAnchorY A w h = max 0 (-affMinY A w h)) := by
  refine ⟨⟨⟨?_, ?_⟩, ⟨?_, ?_⟩, ⟨?_, ?_⟩, ⟨?_, ?_⟩, ?_, ?_⟩,
          ⟨⟨?_, ?_⟩, ⟨?_, ?_⟩, ⟨?_, ?_⟩, ⟨?_, ?_⟩, ?_, ?_⟩⟩ <;>
    first
      | exact Int.floor_le _
      | exact Int.lt_floor_add_one _
      | exact Int.le_ceil _
      | exact ceil_sub_one_lt _
      | exact ite_neg_eq_max _

/-- C10: every one of the four pad amounts passed to the padding primitive
(top = anchor_y, bottom = max(max_y, dst_h) − dst_h, left = anchor_x,
right = max(max_x, dst_w) − dst_w) is nonnegative, in both variants, and
consequently the padded canvas is at least as large as the destination
image in each dimension. -/
theorem pad_widths_nonneg (warp : WarpFn) (src dst : Image) (M A : Mat)
    (w h : ℚ) (flags : ℤ) (bm : BorderMode) (bv : ℚ) :
    (0 ≤ padTopOf (perspAnchorY M w h) ∧
     0 ≤ padBottomOf (perspMaxY M w h) dst.height ∧
     0 ≤ padLeftOf (perspAnchorX M w h) ∧
     0 ≤ padRightOf (perspMaxX M w h) dst.width) ∧
    (0 ≤ padTopOf (affAnchorY A w h) ∧
     0 ≤ padBottomOf (affMaxY A w h) dst.height ∧
     0 ≤ padLeftOf (affAnchorX A w h) ∧
     0 ≤ padRightOf (affMaxX A w h) dst.width) ∧
    (dst.height ≤ (warpPerspectivePaddedCore warp src dst M flags bm bv).1.height ∧
     dst.width ≤ (warpPerspectivePaddedCore warp src dst M flags bm bv).1.width) ∧
    (dst.height ≤ (warpAffinePaddedCore warp src dst A flags bm bv).1.height ∧
     dst.width ≤ (warpAffinePaddedCore warp src dst A flags bm bv).1.width) := by
  refine ⟨⟨perspAnchorY_nonneg M w h, padBottomOf_nonneg _ _,
            perspAnchorX_nonneg M w h, padRightOf_nonneg _ _⟩,
          ⟨affAnchorY_nonneg A w h, padBottomOf_nonneg _ _,
            affAnchorX_nonneg A w h, padRightOf_nonneg _ _⟩,
          ⟨?_, ?_⟩, ⟨?_, ?_⟩⟩ <;>
    simp only [warpPerspectivePaddedCore, warpAffinePaddedCore,
      copyMakeBorder] <;> omega

/-- C2: for every call that returns, the padded canvas is built from the
four pads top = anchor_y, bottom = max(max_y, dst_h) − dst_h,
left = anchor_x, right = max(max_x, dst_w) − dst_w, so the returned canvas
height is anchor_y + max(max_y, dst_h) and its width is
anchor_x + max(max_x, dst_w), in both variants. -/
theorem padded_canvas_dimensions (warp : WarpFn) (src dst : Image) (M A : Mat)
    (flags : ℤ) (bm : BorderMode) (bv : ℚ)
    (hM : M.rows = 3 ∧ M.cols = 3) (hA : A.rows = 2 ∧ A.cols = 3) :
    warpPerspectivePadded warp src dst M flags bm bv
      = .ok (warpPerspectivePaddedCore warp src dst M flags bm bv) ∧
    warpAffinePadded warp src dst A flags bm bv
      = .ok (warpAffinePaddedCore warp src dst A flags bm bv) ∧
    ((warpPerspectivePaddedCore warp src dst M flags bm bv).1.height : ℤ)
      = perspAnchorY (perspFlagsStep (normalize3 M) flags).1 src.width src.height
        + max (perspMaxY (perspFlagsStep (normalize3 M) flags).1 src.width src.height)
            (dst.height : ℤ) ∧
    ((warpPerspectivePaddedCore warp src dst M flags bm bv).1.width : ℤ)
      = perspAnchorX (perspFlagsStep (normalize3 M) flags).1 src.width src.height
        + max (perspMaxX (perspFlagsStep (normalize3 M) flags).1 src.width src.height)
            (dst.width : ℤ) ∧
    ((warpAffinePaddedCore warp src dst A flags bm bv).1.height : ℤ)
      = affAnchorY (affFlagsStep A flags).1 src.width src.height
        + max (affMaxY (affFlagsStep A flags).1 src.width src.height)
            (dst.height : ℤ) ∧
    ((warpAffinePaddedCore warp src dst A flags bm bv).1.width : ℤ)
      = affAnchorX (affFlagsStep A flags).1 src.width src.height
        + max (affMaxX (affFlagsStep A flags).1 src.width src.height)
            (dst.width : ℤ) := by
  refine ⟨by simp [warpPerspectivePadded, hM.1, hM.2],
          by simp [warpAffinePadded, hA.1, hA.2], ?_, ?_, ?_, ?_⟩ <;>
    · simp only [warpPerspectivePaddedCore, warpAffinePaddedCore,
        copyMakeBorder, padTopOf, padBottomOf, padLeftOf, padRightOf]
      have h1 := perspAnchorY_nonneg (perspFlagsStep (normalize3 M) flags).1
        (src.width : ℚ) (src.height : ℚ)
      have h2 := perspAnchorX_nonneg (perspFlagsStep (normalize3 M) flags).1
        (src.width : ℚ) (src.height : ℚ)
      have h3 := affAnchorY_nonneg (affFlagsStep A flags).1
        (src.width : ℚ) (src.height : ℚ)
      have h4 := affAnchorX_nonneg (affFlagsStep A flags).1
        (src.width : ℚ) (src.height : ℚ)
      push_cast
      omega

/-- C6: for every transform whose shape is not 3×3 passed to the
perspective variant, and every transform whose shape is not 2×3 passed to
the affine variant, the call fails with the shape error, regardless of
every other argument, and returns no output. -/
theorem wrong_shape_raises (warpP warpA : WarpFn) (src dst : Image)
    (M A : Mat) (flags : ℤ) (bm : BorderMode) (bv : ℚ)
    (hM : ¬(M.rows = 3 ∧ M.cols = 3)) (hA : ¬(A.rows = 2 ∧ A.cols = 3)) :
    warpPerspectivePadded warpP src dst M flags bm bv = .error .shapeError ∧
    warpAffinePadded warpA src dst A flags bm bv = .error .shapeError := by
  constructor
  · unfold warpPerspectivePadded; rw [if_neg hM]
  · unfold warpAffinePadded; rw [if_neg hA]

/-- Witness for C6: a 2×3 matrix to the perspective variant and a 3×3
matrix to the affine variant both produce the shape error. -/
theorem wrong_shape_raises_witness :
    warpPerspectivePadded testWarp testSrc testDst eyeA 1 .constant 0
      = .error .shapeError ∧
    warpAffinePadded testWarp testSrc testDst eyeM 1 .constant 0
      = .error .shapeError :=
  wrong_shape_raises testWarp testWarp testSrc testDst eyeA eyeM 1 .constant 0
    (by decide) (by decide)

/-- C3: for every call of either variant that returns without error, the
two returned images have identical height and identical width (given the
size contract of the external resampling primitive: it returns an image of
exactly the requested size). -/
theorem outputs_same_size (warpP warpA : WarpFn) (src dst : Image)
    (M A : Mat) (flags : ℤ) (bm : BorderMode) (bv : ℚ)
    (pr qr : Image × Image)
    (hwP : ∀ s m sz f b v,
      (warpP s m sz f b v).width = sz.1 ∧ (warpP s m sz f b v).height = sz.2)
    (hwA : ∀ s m sz f b v,
      (warpA s m sz f b v).width = sz.1 ∧ (warpA s m sz f b v).height = sz.2)
    (hp : warpPerspectivePadded warpP src dst M flags bm bv = .ok pr)
    (ha : warpAffinePadded warpA src dst A flags bm bv = .ok qr) :
    (pr.1.height = pr.2.height ∧ pr.1.width = pr.2.width) ∧
    (qr.1.height = qr.2.height ∧ qr.1.width = qr.2.width) := by
  constructor
  · unfold warpPerspectivePadded at hp
    split at hp
    · injection hp with hp
      subst hp
      simp only [warpPerspectivePaddedCore]
      refine ⟨?_, ?_⟩
      · rw [(hwP _ _ _ _ _ _).2]
      · rw [(hwP _ _ _ _ _ _).1]
    · exact absurd hp (by simp)
  · unfold warpAffinePadded at ha
    split at ha
    · injection ha with ha
      subst ha
      simp only [warpAffinePaddedCore]
      refine ⟨?_, ?_⟩
      · rw [(hwA _ _ _ _ _ _).2]
      · rw [(hwA _ _ _ _ _ _).1]
    · exact absurd ha (by simp)

/-- Witness for C3: concrete call whose two outputs share their size. -/
theorem outputs_same_size_witness :
    ((warpPerspectivePaddedCore testWarp testSrc testDst eyeM 1 .constant 0).1.height
       = (warpPerspectivePaddedCore testWarp testSrc testDst eyeM 1 .constant 0).2.height ∧
     (warpPerspectivePaddedCore testWarp testSrc testDst eyeM 1 .constant 0).1.width
       = (warpPerspectivePaddedCore testWarp testSrc testDst eyeM 1 .constant 0).2.width) ∧
    ((warpAffinePaddedCore testWarp testSrc testDst eyeA 1 .constant 0).1.height
       = (warpAffinePaddedCore testWarp testSrc testDst eyeA 1 .constant 0).2.height ∧
     (warpAffinePaddedCore testWarp testSrc testDst eyeA 1 .constant 0).1.width
       = (warpAffinePaddedCore testWarp testSrc testDst eyeA 1 .constant 0).2.width) :=
  outputs_same_size testWarp testWarp testSrc testDst eyeM eyeA 1 .constant 0
    _ _ (fun _ _ _ _ _ _ => ⟨rfl, rfl⟩) (fun _ _ _ _ _ _ => ⟨rfl, rfl⟩)
    rfl rfl

/-- Witness for C2: a concrete perspective call returns its core result,
whose canvas height evaluates to anchor_y + max(max_y, dst_h) = 0 + 2. -/
theorem padded_canvas_dimensions_witness :
    warpPerspectivePadded testWarp testSrc testDst eyeM 1 .constant 0
      = .ok (warpPerspectivePaddedCore testWarp testSrc testDst eyeM 1 .constant 0) ∧
    ((warpPerspectivePaddedCore testWarp testSrc testDst eyeM 1 .constant 0).1.height : ℤ)
      = 2 := by
  obtain ⟨h1, h2, h3, -⟩ := padded_canvas_dimensions testWarp testSrc testDst
    eyeM eyeA 1 .constant 0 ⟨rfl, rfl⟩ ⟨rfl, rfl⟩
  refine ⟨h1, ?_⟩
  rw [h3]
  norm_num [perspFlagsStep, normalize3, perspAnchorY, perspMinY, perspMaxY,
    perspY, perspW, eyeM, testSrc, testDst, INTER_LINEAR, INTER_NEAREST,
    WARP_INVERSE_MAP, min_def, max_def]

/-- One shifted coordinate stays within `[0, anchor + max(maxI, d)]`. -/
lemma shift_coord_bounds (px : ℚ) (mn mx : ℤ) (d : Nat)
    (h1 : (mn : ℚ) ≤ px) (h2 : px ≤ (mx : ℚ)) :
    0 ≤ px + ((if mn < 0 then -mn else 0 : ℤ) : ℚ) ∧
    px + ((if mn < 0 then -mn else 0 : ℤ) : ℚ)
      ≤ (((if mn < 0 then -mn else 0) + max mx (d : ℤ) : ℤ) : ℚ) := by
  have ha : -mn ≤ (if mn < 0 then -mn else 0) := by split <;> omega
  have hc : mx ≤ max mx (d : ℤ) := le_max_left _ _
  have ha' : ((-mn : ℤ) : ℚ) ≤ ((if mn < 0 then -mn else 0 : ℤ) : ℚ) := by
    exact_mod_cast ha
  have hc' : ((mx : ℤ) : ℚ) ≤ ((max mx (d : ℤ) : ℤ) : ℚ) := by
    exact_mod_cast hc
  constructor
  · push_cast at ha' ⊢
    linarith
  · push_cast at hc' ⊢
    linarith

/-- A projected corner, shifted by both anchors, lies in the canvas box. -/
lemma corner_box (px py : ℚ) (mnx mxx mny mxy : ℤ) (dW dH : Nat)
    (hx1 : (mnx : ℚ) ≤ px) (hx2 : px ≤ (mxx : ℚ))
    (hy1 : (mny : ℚ) ≤ py) (hy2 : py ≤ (mxy : ℚ)) :
    insideBox (px + ((if mnx < 0 then -mnx else 0 : ℤ) : ℚ))
      (py + ((if mny < 0 then -mny else 0 : ℤ) : ℚ))
      (((if mnx < 0 then -mnx else 0) + max mxx (dW : ℤ) : ℤ) : ℚ)
      (((if mny < 0 then -mny else 0) + max mxy (dH : ℤ) : ℤ) : ℚ) := by
  obtain ⟨a1, a2⟩ := shift_coord_bounds px mnx mxx dW hx1 hx2
  obtain ⟨b1, b2⟩ := shift_coord_bounds py mny mxy dH hy1 hy2
  exact ⟨a1, a2, b1, b2⟩

/-- C9: for every accepted transform, each of the four projected source
corners, once translated by the anchors, lies inside
`[0, canvas_W] × [0, canvas_H]` where `canvas_W = anchor_x + max(max_x, dst_w)`
and `canvas_H = anchor_y + max(max_y, dst_h)` — in both variants. -/
theorem corner_containment (M A : Mat) (w h : ℚ) (dstH dstW : Nat)
    (hw00 : perspW M 0 0 ≠ 0) (hw10 : perspW M w 0 ≠ 0)
    (hw11 : perspW M w h ≠ 0) (hw01 : perspW M 0 h ≠ 0) :
    (insideBox (perspX M 0 0 + (perspAnchorX M w h : ℚ))
        (perspY M 0 0 + (perspAnchorY M w h : ℚ))
        ((perspAnchorX M w h + max (perspMaxX M w h) (dstW : ℤ) : ℤ) : ℚ)
        ((perspAnchorY M w h + max (perspMaxY M w h) (dstH : ℤ) : ℤ) : ℚ) ∧
     insideBox (perspX M w 0 + (perspAnchorX M w h : ℚ))
        (perspY M w 0 + (perspAnchorY M w h : ℚ))
        ((perspAnchorX M w h + max (perspMaxX M w h) (dstW : ℤ) : ℤ) : ℚ)
        ((perspAnchorY M w h + max (perspMaxY M w h) (dstH : ℤ) : ℤ) : ℚ) ∧
     insideBox (perspX M w h + (perspAnchorX M w h : ℚ))
        (perspY M w h + (perspAnchorY M w h : ℚ))
        ((perspAnchorX M w h + max (perspMaxX M w h) (dstW : ℤ) : ℤ) : ℚ)
        ((perspAnchorY M w h + max (perspMaxY M w h) (dstH : ℤ) : ℤ) : ℚ) ∧
     insideBox (perspX M 0 h + (perspAnchorX M w h : ℚ))
        (perspY M 0 h + (perspAnchorY M w h : ℚ))
        ((perspAnchorX M w h + max (perspMaxX M w h) (dstW : ℤ) : ℤ) : ℚ)
        ((perspAnchorY M w h + max (perspMaxY M w h) (dstH : ℤ) : ℤ) : ℚ)) ∧
    (insideBox (affX A 0 0 + (affAnchorX A w h : ℚ))
        (affY A 0 0 + (affAnchorY A w h : ℚ))
        ((affAnchorX A w h + max (affMaxX A w h) (dstW : ℤ) : ℤ) : ℚ)
        ((affAnchorY A w h + max (affMaxY A w h) (dstH : ℤ) : ℤ) : ℚ) ∧
     insideBox (affX A w 0 + (affAnchorX A w h : ℚ))
        (affY A w 0 + (affAnchorY A w h : ℚ))
        ((affAnchorX A w h + max (affMaxX A w h) (dstW : ℤ) : ℤ) : ℚ)
        ((affAnchorY A w h + max (affMaxY A w h) (dstH : ℤ) : ℤ) : ℚ) ∧
     insideBox (affX A w h + (affAnchorX A w h : ℚ))
        (affY A w h + (affAnchorY A w h : ℚ))
        ((affAnchorX A w h + max (affMaxX A w h) (dstW : ℤ) : ℤ) : ℚ)
        ((affAnchorY A w h + max (affMaxY A w h) (dstH : ℤ) : ℤ) : ℚ) ∧
     insideBox (affX A 0 h + (affAnchorX A w h : ℚ))
        (affY A 0 h + (affAnchorY A w h : ℚ))
        ((affAnchorX A w h + max (affMaxX A w h) (dstW : ℤ) : ℤ) : ℚ)
        ((affAnchorY A w h + max (affMaxY A w h) (dstH : ℤ) : ℤ) : ℚ)) := by
  have px0 : ((perspMinX M w h : ℤ) : ℚ) ≤ perspX M 0 0 :=
    le_trans (Int.floor_le _) (min4_le₀ _ _ _ _)
  have px1 : ((perspMinX M w h : ℤ) : ℚ) ≤ perspX M w 0 :=
    le_trans (Int.floor_le _) (min4_le₁ _ _ _ _)
  have px2 : ((perspMinX M w h : ℤ) : ℚ) ≤ perspX M w h :=
    le_trans (Int.floor_le _) (min4_le₂ _ _ _ _)
  have px3 : ((perspMinX M w h : ℤ) : ℚ) ≤ perspX M 0 h :=
    le_trans (Int.floor_le _) (min4_le₃ _ _ _ _)
  have qx0 : perspX M 0 0 ≤ ((perspMaxX M w h : ℤ) : ℚ) :=
    le_trans (le_max4₀ _ _ _ _) (Int.le_ceil _)
  have qx1 : perspX M w 0 ≤ ((perspMaxX M w h : ℤ) : ℚ) :=
    le_trans (le_max4₁ _ _ _ _) (Int.le_ceil _)
  have qx2 : perspX M w h ≤ ((perspMaxX M w h : ℤ) : ℚ) :=
    le_trans (le_max4₂ _ _ _ _) (Int.le_ceil _)
  have qx3 : perspX M 0 h ≤ ((perspMaxX M w h : ℤ) : ℚ) :=
    le_trans (le_max4₃ _ _ _ _) (Int.le_ceil _)
  have py0 : ((perspMinY M w h : ℤ) : ℚ) ≤ perspY M 0 0 :=
    le_trans (Int.floor_le _) (min4_le₀ _ _ _ _)
  have py1 : ((perspMinY M w h : ℤ) : ℚ) ≤ perspY M w 0 :=
    le_trans (Int.floor_le _) (min4_le₁ _ _ _ _)
  have py2 : ((perspMinY M w h : ℤ) : ℚ) ≤ perspY M w h :=
    le_trans (Int.floor_le _) (min4_le₂ _ _ _ _)
  have py3 : ((perspMinY M w h : ℤ) : ℚ) ≤ perspY M 0 h :=
    le_trans (Int.floor_le _) (min4_le₃ _ _ _ _)
  have qy0 : perspY M 0 0 ≤ ((perspMaxY M w h : ℤ) : ℚ) :=
    le_trans (le_max4₀ _ _ _ _) (Int.le_ceil _)
  have qy1 : perspY M w 0 ≤ ((perspMaxY M w h : ℤ) : ℚ) :=
    le_trans (le_max4₁ _ _ _ _) (Int.le_ceil _)
  have qy2 : perspY M w h ≤ ((perspMaxY M w h : ℤ) : ℚ) :=
    le_trans (le_max4₂ _ _ _ _) (Int.le_ceil _)
  have qy3 : perspY M 0 h ≤ ((perspMaxY M w h : ℤ) : ℚ) :=
    le_trans (le_max4₃ _ _ _ _) (Int.le_ceil _)
  have ax0 : ((affMinX A w h : ℤ) : ℚ) ≤ affX A 0 0 :=
    le_trans (Int.floor_le _) (min4_le₀ _ _ _ _)
  have ax1 : ((affMinX A w h : ℤ) : ℚ) ≤ affX A w 0 :=
    le_trans (Int.floor_le _) (min4_le₁ _ _ _ _)
  have ax2 : ((affMinX A w h : ℤ) : ℚ) ≤ affX A w h :=
    le_trans (Int.floor_le _) (min4_le₂ _ _ _ _)
  have ax3 : ((affMinX A w h : ℤ) : ℚ) ≤ affX A 0 h :=
    le_trans (Int.floor_le _) (min4_le₃ _ _ _ _)
  have bx0 : affX A 0 0 ≤ ((affMaxX A w h : ℤ) : ℚ) :=
    le_trans (le_max4₀ _ _ _ _) (Int.le_ceil _)
  have bx1 : affX A w 0 ≤ ((affMaxX A w h : ℤ) : ℚ) :=
    le_trans (le_max4₁ _ _ _ _) (Int.le_ceil _)
  have bx2 : affX A w h ≤ ((affMaxX A w h : ℤ) : ℚ) :=
    le_trans (le_max4₂ _ _ _ _) (Int.le_ceil _)
  have bx3 : affX A 0 h ≤ ((affMaxX A w h : ℤ) : ℚ) :=
    le_trans (le_max4₃ _ _ _ _) (Int.le_ceil _)
  have ay0 : ((affMinY A w h : ℤ) : ℚ) ≤ affY A 0 0 :=
    le_trans (Int.floor_le _) (min4_le₀ _ _ _ _)
  have ay1 : ((affMinY A w h : ℤ) : ℚ) ≤ affY A w 0 :=
    le_trans (Int.floor_le _) (min4_le₁ _ _ _ _)
  have ay2 : ((affMinY A w h : ℤ) : ℚ) ≤ affY A w h :=
    le_trans (Int.floor_le _) (min4_le₂ _ _ _ _)
  have ay3 : ((affMinY A w h : ℤ) : ℚ) ≤ affY A 0 h :=
    le_trans (Int.floor_le _) (min4_le₃ _ _ _ _)
  have by0 : affY A 0 0 ≤ ((affMaxY A w h : ℤ) : ℚ) :=
    le_trans (le_max4₀ _ _ _ _) (Int.le_ceil _)
  have by1 : affY A w 0 ≤ ((affMaxY A w h : ℤ) : ℚ) :=
    le_trans (le_max4₁ _ _ _ _) (Int.le_ceil _)
  have by2 : affY A w h ≤ ((affMaxY A w h : ℤ) : ℚ) :=
    le_trans (le_max4₂ _ _ _ _) (Int.le_ceil _)
  have by3 : affY A 0 h ≤ ((affMaxY A w h : ℤ) : ℚ) :=
    le_trans (le_max4₃ _ _ _ _) (Int.le_ceil _)
  exact ⟨⟨corner_box _ _ _ _ _ _ _ _ px0 qx0 py0 qy0,
          corner_box _ _ _ _ _ _ _ _ px1 qx1 py1 qy1,
          corner_box _ _ _ _ _ _ _ _ px2 qx2 py2 qy2,
          corner_box _ _ _ _ _ _ _ _ px3 qx3 py3 qy3⟩,
         ⟨corner_box _ _ _ _ _ _ _ _ ax0 bx0 ay0 by0,
          corner_box _ _ _ _ _ _ _ _ ax1 bx1 ay1 by1,
          corner_box _ _ _ _ _ _ _ _ ax2 bx2 ay2 by2,
          corner_box _ _ _ _ _ _ _ _ ax3 bx3 ay3 by3⟩⟩

/-- Witness for C9: the identity homography and identity affine transform
on a 1×1 source and 2×2 destination keep every shifted corner inside the
canvas box. -/
theorem corner_containment_witness :
    insideBox (perspX eyeM 0 0 + (perspAnchorX eyeM 1 1 : ℚ))
        (perspY eyeM 0 0 + (perspAnchorY eyeM 1 1 : ℚ))
        ((perspAnchorX eyeM 1 1 + max (perspMaxX eyeM 1 1) (2 : ℤ) : ℤ) : ℚ)
        ((perspAnchorY eyeM 1 1 + max (perspMaxY eyeM 1 1) (2 : ℤ) : ℤ) : ℚ) ∧
    insideBox (affX eyeA 1 1 + (affAnchorX eyeA 1 1 : ℚ))
        (affY eyeA 1 1 + (affAnchorY eyeA 1 1 : ℚ))
        ((affAnchorX eyeA 1 1 + max (affMaxX eyeA 1 1) (2 : ℤ) : ℤ) : ℚ)
        ((affAnchorY eyeA 1 1 + max (affMaxY eyeA 1 1) (2 : ℤ) : ℤ) : ℚ) := by
  have hp := corner_containment eyeM eyeA 1 1 2 2
    (by norm_num [perspW, eyeM]) (by norm_num [perspW, eyeM])
    (by norm_num [perspW, eyeM]) (by norm_num [perspW, eyeM])
  exact ⟨hp.1.1, hp.2.2.2.1⟩

/-- Counterexample for C5: `INTER_CUBIC + WARP_INVERSE_MAP` (= 18) has the
inverse-map bit set, but both flags steps pass the matrix and the flags
through unchanged: the transform is not inverted (its genuine inverse has a
different (0,0) entry) and the bit is not cleared. -/
theorem inverse_bit_cubic_not_handled :
    perspFlagsStep scaleM (INTER_CUBIC + WARP_INVERSE_MAP)
      = (scaleM, INTER_CUBIC + WARP_INVERSE_MAP) ∧
    (invert3 scaleM).entry 0 0 ≠ scaleM.entry 0 0 ∧
    INTER_CUBIC + WARP_INVERSE_MAP - WARP_INVERSE_MAP
      ≠ INTER_CUBIC + WARP_INVERSE_MAP ∧
    affFlagsStep scaleA (INTER_CUBIC + WARP_INVERSE_MAP)
      = (scaleA, INTER_CUBIC + WARP_INVERSE_MAP) := by
  refine ⟨?_, ?_, ?_, ?_⟩
  · norm_num [perspFlagsStep, INTER_CUBIC, INTER_LINEAR, INTER_NEAREST,
      WARP_INVERSE_MAP]
  · norm_num [invert3, det3, scaleM]
  · norm_num [INTER_CUBIC, WARP_INVERSE_MAP]
  · norm_num [affFlagsStep, INTER_CUBIC, INTER_LINEAR, INTER_NEAREST,
      WARP_INVERSE_MAP]

/-- C5 (amended): for every flags value in the documented set
{WARP_INVERSE_MAP, INTER_LINEAR + WARP_INVERSE_MAP,
INTER_NEAREST + WARP_INVERSE_MAP}, each variant inverts its transform — the
general 3×3 inverse for the perspective variant, the dedicated closed-form
affine inverse for the affine variant — and subtracts WARP_INVERSE_MAP, so
the remaining flags are a bare interpolation mode; moreover the inverses
are genuine: for a nonsingular matrix the 3×3 product with its inverse is
the identity, and the affine inverse undoes the affine map pointwise. -/
theorem inverse_flag_handling (M A : Mat) (flags : ℤ)
    (hf : flags = WARP_INVERSE_MAP ∨ flags = INTER_LINEAR + WARP_INVERSE_MAP
        ∨ flags = INTER_NEAREST + WARP_INVERSE_MAP) :
    perspFlagsStep M flags = (invert3 M, flags - WARP_INVERSE_MAP) ∧
    affFlagsStep A flags = (invertAffineTransform A, flags - WARP_INVERSE_MAP) ∧
    (flags - WARP_INVERSE_MAP = INTER_LINEAR
      ∨ flags - WARP_INVERSE_MAP = INTER_NEAREST) ∧
    (det3 M ≠ 0 → ∀ i j, i < 3 → j < 3 →
      (mul3 M (invert3 M)).entry i j = if i = j then 1 else 0) ∧
    (det2 A ≠ 0 → ∀ x y : ℚ,
      affX (invertAffineTransform A) (affX A x y) (affY A x y) = x ∧
      affY (invertAffineTransform A) (affX A x y) (affY A x y) = y) := by
  refine ⟨?_, ?_, ?_, ?_, ?_⟩
  · unfold perspFlagsStep; rw [if_pos hf]
  · unfold affFlagsStep; rw [if_pos hf]
  · rcases hf with rfl | rfl | rfl <;>
      norm_num [INTER_LINEAR, INTER_NEAREST, WARP_INVERSE_MAP]
  · intro hd i j hi hj
    interval_cases i <;> interval_cases j <;>
      · simp only [mul3, invert3]
        norm_num
        try field_simp
        try rw [det3]
        try ring
  · intro hd x y
    constructor <;>
      · simp only [affX, affY, invertAffineTransform]
        norm_num
        try field_simp
        try rw [det2]
        try ring

/-- Witness for C5 (amended): at `INTER_LINEAR + WARP_INVERSE_MAP` both
variants substitute the inverse transform and clear the flag. -/
theorem inverse_flag_handling_witness :
    perspFlagsStep scaleM (INTER_LINEAR + WARP_INVERSE_MAP)
      = (invert3 scaleM, INTER_LINEAR + WARP_INVERSE_MAP - WARP_INVERSE_MAP) ∧
    affFlagsStep scaleA (INTER_LINEAR + WARP_INVERSE_MAP)
      = (invertAffineTransform scaleA,
         INTER_LINEAR + WARP_INVERSE_MAP - WARP_INVERSE_MAP) := by
  have h := inverse_flag_handling scaleM scaleA
    (INTER_LINEAR + WARP_INVERSE_MAP) (Or.inr (Or.inl rfl))
  exact ⟨h.1, h.2.1⟩

/-- C7 evidence: under `degM`, the projected corner `(1, 0)` of the 1×1
source has homogeneous coordinate 0, yet `warpPerspectivePadded` raises
nothing and returns its outputs (there is no degeneracy check in the code:
the only error path is the shape assert). -/
theorem degenerate_corner_not_rejected :
    perspW (perspFlagsStep (normalize3 degM) INTER_LINEAR).1
        (testSrc.width : ℚ) 0 = 0 ∧
    warpPerspectivePadded testWarp testSrc testDst degM INTER_LINEAR
        .constant 0
      = .ok (warpPerspectivePaddedCore testWarp testSrc testDst degM
          INTER_LINEAR .constant 0) := by
  constructor
  · norm_num [perspFlagsStep, normalize3, degM, perspW, testSrc,
      INTER_LINEAR, INTER_NEAREST, WARP_INVERSE_MAP]
  · rfl

/-- Counterexample for C4: with border mode `replicate` requested, the
legacy `padTransf.warpPerspectivePadded` still pads the destination with
constant 0 (pixel (0,0) of its canvas is 0), while the mode-respecting
padding of the modern variant replicates the edge (pixel value 5): the
legacy call does not pad with the caller-supplied border mode. -/
theorem legacy_padding_ignores_border_mode :
    (warpPerspectivePaddedLegacyCore testWarp testSrc testDst transM
        INTER_LINEAR .replicate 7).1.pixel 0 0
      ≠ (warpPerspectivePaddedCore testWarp testSrc testDst transM
        INTER_LINEAR .replicate 7).1.pixel 0 0 := by
  norm_num [warpPerspectivePaddedLegacyCore, warpPerspectivePaddedCore,
    npPadConstantZero, copyMakeBorder, clampIdx, perspFlagsStep, normalize3,
    perspAnchorX, perspAnchorY, perspMinX, perspMinY, perspMaxX, perspMaxY,
    perspX, perspY, perspW, padTopOf, padBottomOf, padLeftOf, padRightOf,
    testWarp, testSrc, testDst, transM, INTER_LINEAR, INTER_NEAREST,
    WARP_INVERSE_MAP, min_def, max_def]

/-- C4 (amended): every variant pads the destination to the final canvas
size with the original content anchored at (anchor_x, anchor_y); the
`padtransf.py` variants delegate to the border primitive with the
caller-supplied mode and value (constant fill with the given value, or edge
replication), while the legacy `padTransf.py` variants always pad with
constant 0, ignoring the supplied mode and value. -/
theorem dst_padding_modes_and_anchoring (warpP warpA : WarpFn)
    (src dst : Image) (M A : Mat) (flags : ℤ) (bm : BorderMode) (bv : ℚ) :
    (warpPerspectivePaddedCore warpP src dst M flags bm bv).1
      = copyMakeBorder dst
          (padTopOf (perspAnchorY (perspFlagsStep (normalize3 M) flags).1
            src.width src.height)).toNat
          (padBottomOf (perspMaxY (perspFlagsStep (normalize3 M) flags).1
            src.width src.height) dst.height).toNat
          (padLeftOf (perspAnchorX (perspFlagsStep (normalize3 M) flags).1
            src.width src.height)).toNat
          (padRightOf (perspMaxX (perspFlagsStep (normalize3 M) flags).1
            src.width src.height) dst.width).toNat bm bv ∧
    (warpAffinePaddedCore warpA src dst A flags bm bv).1
      = copyMakeBorder dst
          (padTopOf (affAnchorY (affFlagsStep A flags).1
            src.width src.height)).toNat
          (padBottomOf (affMaxY (affFlagsStep A flags).1
            src.width src.height) dst.height).toNat
          (padLeftOf (affAnchorX (affFlagsStep A flags).1
            src.width src.height)).toNat
          (padRightOf (affMaxX (affFlagsStep A flags).1
            src.width src.height) dst.width).toNat bm bv ∧
    (warpPerspectivePaddedLegacyCore warpP src dst M flags bm bv).1
      = npPadConstantZero dst
          (padTopOf (perspAnchorY (perspFlagsStep (normalize3 M) flags).1
            src.width src.height)).toNat
          (padBottomOf (perspMaxY (perspFlagsStep (normalize3 M) flags).1
            src.width src.height) dst.height).toNat
          (padLeftOf (perspAnchorX (perspFlagsStep (normalize3 M) flags).1
            src.width src.height)).toNat
          (padRightOf (perspMaxX (perspFlagsStep (normalize3 M) flags).1
            src.width src.height) dst.width).toNat ∧
    (warpAffinePaddedLegacyCore warpA src dst A flags bm bv).1
      = npPadConstantZero dst
          (padTopOf (affAnchorY (affFlagsStep A flags).1
            src.width src.height)).toNat
          (padBottomOf (affMaxY (affFlagsStep A flags).1
            src.width src.height) dst.height).toNat
          (padLeftOf (affAnchorX (affFlagsStep A flags).1
            src.width src.height)).toNat
          (padRightOf (affMaxX (affFlagsStep A flags).1
            src.width src.height) dst.width).toNat ∧
    (∀ (img : Image) (top bottom left right : Nat) (mode : BorderMode)
       (v : ℚ) (y x : Nat), y < img.height → x < img.width →
       (copyMakeBorder img top bottom left right mode v).pixel
           (top + y) (left + x)
         = img.pixel y x) ∧
    (∀ (img : Image) (top bottom left right : Nat) (v : ℚ) (y x : Nat),
       ¬(top ≤ y ∧ y < top + img.height ∧ left ≤ x ∧ x < left + img.width) →
       (copyMakeBorder img top bottom left right .constant v).pixel y x = v) ∧
    (∀ (img : Image) (top bottom left right : Nat) (v : ℚ) (y x : Nat),
       ¬(top ≤ y ∧ y < top + img.height ∧ left ≤ x ∧ x < left + img.width) →
       (copyMakeBorder img top bottom left right .replicate v).pixel y x
         = img.pixel (clampIdx img.height ((y : ℤ) - top))
             (clampIdx img.width ((x : ℤ) - left))) ∧
    (∀ (img : Image) (top bottom left right : Nat) (y x : Nat),
       y < img.height → x < img.width →
       (npPadConstantZero img top bottom left right).pixel (top + y) (left + x)
         = img.pixel y x) ∧
    (∀ (img : Image) (top bottom left right : Nat) (y x : Nat),
       ¬(top ≤ y ∧ y < top + img.height ∧ left ≤ x ∧ x < left + img.width) →
       (npPadConstantZero img top bottom left right).pixel y x = 0) := by
  refine ⟨rfl, rfl, rfl, rfl, ?_, ?_, ?_, ?_, ?_⟩
  · intro img top bottom left right mode v y x hy hx
    simp only [copyMakeBorder]
    rw [if_pos (by omega : top ≤ top + y ∧ top + y < top + img.height
      ∧ left ≤ left + x ∧ left + x < left + img.width)]
    rw [Nat.add_sub_cancel_left, Nat.add_sub_cancel_left]
  · intro img top bottom left right v y x hout
    simp only [copyMakeBorder]
    rw [if_neg hout]
  · intro img top bottom left right v y x hout
    simp only [copyMakeBorder]
    rw [if_neg hout]
  · intro img top bottom left right y x hy hx
    simp only [npPadConstantZero]
    rw [if_pos (by omega : top ≤ top + y ∧ top + y < top + img.height
      ∧ left ≤ left + x ∧ left + x < left + img.width)]
    rw [Nat.add_sub_cancel_left, Nat.add_sub_cancel_left]
  · intro img top bottom left right y x hout
    simp only [npPadConstantZero]
    rw [if_neg hout]

/-- Witness for C4 (amended): concrete padding calls — the mode-respecting
primitive fills with the requested constant 7, content is anchored, and the
legacy zero-pad fills with 0. -/
theorem dst_padding_modes_and_anchoring_witness :
    (copyMakeBorder testDst 1 0 1 0 .constant 7).pixel 0 0 = 7 ∧
    (copyMakeBorder testDst 1 0 1 0 .constant 7).pixel (1 + 0) (1 + 0)
      = testDst.pixel 0 0 ∧
    (npPadConstantZero testDst 1 0 1 0).pixel 0 0 = 0 := by
  obtain ⟨-, -, -, -, hcontent, hconst, -, -, hzero⟩ :=
    dst_padding_modes_and_anchoring testWarp testWarp testSrc testDst
      eyeM eyeA 1 .constant (7 : ℚ)
  exact ⟨hconst testDst 1 0 1 0 7 0 0 (by decide),
         hcontent testDst 1 0 1 0 .constant 7 0 0 (by decide) (by decide),
         hzero testDst 1 0 1 0 0 0 (by decide)⟩

/-- Dividing numerator and denominator by the same nonzero scalar leaves a quotient unchanged. -/
lemma div_div_same (a b c : ℚ) (hc : c ≠ 0) : (a / c) / (b / c) = a / b := by
  rcases eq_or_ne b 0 with rfl | hb
  · simp
  · field_simp

/-- Homography normalization does not move the projected x coordinate. -/
lemma perspX_normalize (M : Mat) (x y : ℚ) (h22 : M.entry 2 2 ≠ 0) :
    perspX (normalize3 M) x y = perspX M x y := by
  simp only [perspX, perspW, normalize3]
  rw [show M.entry 0 0 / M.entry 2 2 * x + M.entry 0 1 / M.entry 2 2 * y
        + M.entry 0 2 / M.entry 2 2
      = (M.entry 0 0 * x + M.entry 0 1 * y + M.entry 0 2) / M.entry 2 2 by ring,
    show M.entry 2 0 / M.entry 2 2 * x + M.entry 2 1 / M.entry 2 2 * y
        + M.entry 2 2 / M.entry 2 2
      = (M.entry 2 0 * x + M.entry 2 1 * y + M.entry 2 2) / M.entry 2 2 by ring,
    div_div_same _ _ _ h22]

/-- With zero anchors, the shifted transform is projectively the original matrix on the 3×3 block. -/
lemma shifted_cross (M : Mat) (h22 : M.entry 2 2 ≠ 0) (i j : Nat) (hi : i < 3) (hj : j < 3) :
    (perspShiftedTransf (normalize3 M) 0 0).entry i j * M.entry 2 2
      = M.entry i j * (perspShiftedTransf (normalize3 M) 0 0).entry 2 2 := by
  have hTn : ∀ a b, a < 3 →
      (mul3 (translTransf 0 0) (normalize3 M)).entry a b
        = (normalize3 M).entry a b := by
    intro a b ha
    interval_cases a <;> simp [mul3, translTransf, normalize3]
  have h1 : (normalize3 M).entry 2 2 = 1 := by
    simp only [normalize3]
    exact div_self h22
  have hn : ∀ a b, (normalize3 (mul3 (translTransf 0 0) (normalize3 M))).entry a b
      = (mul3 (translTransf 0 0) (normalize3 M)).entry a b
        / (mul3 (translTransf 0 0) (normalize3 M)).entry 2 2 := fun a b => rfl
  have e1 : (perspShiftedTransf (normalize3 M) 0 0).entry i j
      = (normalize3 M).entry i j := by
    show (normalize3 (mul3 (translTransf 0 0) (normalize3 M))).entry i j = _
    rw [hn, hTn i j hi, hTn 2 2 (by norm_num), h1, div_one]
  have e2 : (perspShiftedTransf (normalize3 M) 0 0).entry 2 2 = 1 := by
    show (normalize3 (mul3 (translTransf 0 0) (normalize3 M))).entry 2 2 = 1
    rw [hn, hTn 2 2 (by norm_num), h1]
    norm_num
  rw [e1, e2, mul_one]
  show M.entry i j / M.entry 2 2 * M.entry 2 2 = M.entry i j
  exact div_mul_cancel₀ _ h22

/-- Homography normalization does not move the projected y coordinate. -/
lemma perspY_normalize (M : Mat) (x y : ℚ) (h22 : M.entry 2 2 ≠ 0) :
    perspY (normalize3 M) x y = perspY M x y := by
  simp only [perspY, perspW, normalize3]
  rw [show M.entry 1 0 / M.entry 2 2 * x + M.entry 1 1 / M.entry 2 2 * y
        + M.entry 1 2 / M.entry 2 2
      = (M.entry 1 0 * x + M.entry 1 1 * y + M.entry 1 2) / M.entry 2 2 by ring,
    show M.entry 2 0 / M.entry 2 2 * x + M.entry 2 1 / M.entry 2 2 * y
        + M.entry 2 2 / M.entry 2 2
      = (M.entry 2 0 * x + M.entry 2 1 * y + M.entry 2 2) / M.entry 2 2 by ring,
    div_div_same _ _ _ h22]

/-- No-op padding for the perspective variant when all projected corners lie inside the destination box. -/
lemma persp_noop_aux (warpP : WarpFn) (src dst : Image) (M : Mat) (flags : ℤ)
    (bm : BorderMode) (bv : ℚ)
    (h22 : M.entry 2 2 ≠ 0)
    (hflags : ¬(flags = WARP_INVERSE_MAP ∨ flags = INTER_LINEAR + WARP_INVERSE_MAP
        ∨ flags = INTER_NEAREST + WARP_INVERSE_MAP))
    (hwarp : ∀ m m' sz f, (∀ i j, i < 3 → j < 3 →
        m.entry i j * m'.entry 2 2 = m'.entry i j * m.entry 2 2) →
        warpP src m sz f bm bv = warpP src m' sz f bm bv)
    (hin00 : insideBox (perspX M 0 0) (perspY M 0 0) dst.width dst.height)
    (hin10 : insideBox (perspX M src.width 0) (perspY M src.width 0)
      dst.width dst.height)
    (hin11 : insideBox (perspX M src.width src.height)
      (perspY M src.width src.height) dst.width dst.height)
    (hin01 : insideBox (perspX M 0 src.height) (perspY M 0 src.height)
      dst.width dst.height) :
    perspAnchorX (perspFlagsStep (normalize3 M) flags).1
      src.width src.height = 0 ∧
    perspAnchorY (perspFlagsStep (normalize3 M) flags).1
      src.width src.height = 0 ∧
    (warpPerspectivePaddedCore warpP src dst M flags bm bv).1.height
      = dst.height ∧
    (warpPerspectivePaddedCore warpP src dst M flags bm bv).1.width
      = dst.width ∧
    (∀ y x, y < dst.height → x < dst.width →
      (warpPerspectivePaddedCore warpP src dst M flags bm bv).1.pixel y x
        = dst.pixel y x) ∧
    (warpPerspectivePaddedCore warpP src dst M flags bm bv).2
      = warpP src M (dst.width, dst.height) flags bm bv := by
  have hstep : perspFlagsStep (normalize3 M) flags = (normalize3 M, flags) := by
    unfold perspFlagsStep; rw [if_neg hflags]
  have hx00 : perspX (normalize3 M) 0 0 = perspX M 0 0 :=
    perspX_normalize M _ _ h22
  have hx10 : perspX (normalize3 M) src.width 0 = perspX M src.width 0 :=
    perspX_normalize M _ _ h22
  have hx11 : perspX (normalize3 M) src.width src.height
      = perspX M src.width src.height := perspX_normalize M _ _ h22
  have hx01 : perspX (normalize3 M) 0 src.height = perspX M 0 src.height :=
    perspX_normalize M _ _ h22
  have hy00 : perspY (normalize3 M) 0 0 = perspY M 0 0 :=
    perspY_normalize M _ _ h22
  have hy10 : perspY (normalize3 M) src.width 0 = perspY M src.width 0 :=
    perspY_normalize M _ _ h22
  have hy11 : perspY (normalize3 M) src.width src.height
      = perspY M src.width src.height := perspY_normalize M _ _ h22
  have hy01 : perspY (normalize3 M) 0 src.height = perspY M 0 src.height :=
    perspY_normalize M _ _ h22
  have hEqMinX : perspMinX (normalize3 M) src.width src.height
      = perspMinX M src.width src.height := by
    unfold perspMinX; rw [hx00, hx10, hx11, hx01]
  have hEqMinY : perspMinY (normalize3 M) src.width src.height
      = perspMinY M src.width src.height := by
    unfold perspMinY; rw [hy00, hy10, hy11, hy01]
  have hEqMaxY : perspMaxY (normalize3 M) src.width src.height
      = perspMaxY M src.width src.height := by
    unfold perspMaxY; rw [hy00, hy10, hy11, hy01]
  have hEqMaxX : perspMaxX (normalize3 M) src.width src.height
      = perspMaxX M src.width src.height := by
    unfold perspMaxX; rw [hx00, hx10, hx11, hx01]
  have hminX : 0 ≤ perspMinX M src.width src.height := by
    apply Int.le_floor.mpr
    push_cast
    exact le_min hin00.1 (le_min hin10.1 (le_min hin11.1 hin01.1))
  have hminY : 0 ≤ perspMinY M src.width src.height := by
    apply Int.le_floor.mpr
    push_cast
    exact le_min hin00.2.2.1 (le_min hin10.2.2.1 (le_min hin11.2.2.1 hin01.2.2.1))
  have hmaxX : perspMaxX M src.width src.height ≤ (dst.width : ℤ) := by
    apply Int.ceil_le.mpr
    push_cast
    exact max_le hin00.2.1 (max_le hin10.2.1 (max_le hin11.2.1 hin01.2.1))
  have hmaxY : perspMaxY M src.width src.height ≤ (dst.height : ℤ) := by
    apply Int.ceil_le.mpr
    push_cast
    exact max_le hin00.2.2.2 (max_le hin10.2.2.2 (max_le hin11.2.2.2 hin01.2.2.2))
  have hax : perspAnchorX (normalize3 M) src.width src.height = 0 := by
    unfold perspAnchorX; rw [hEqMinX, if_neg (not_lt.mpr hminX)]
  have hay : perspAnchorY (normalize3 M) src.width src.height = 0 := by
    unfold perspAnchorY; rw [hEqMinY, if_neg (not_lt.mpr hminY)]
  have hpb : (padBottomOf (perspMaxY (normalize3 M) src.width src.height)
      dst.height).toNat = 0 := by
    unfold padBottomOf; rw [hEqMaxY, max_eq_right hmaxY]; simp
  have hpr : (padRightOf (perspMaxX (normalize3 M) src.width src.height)
      dst.width).toNat = 0 := by
    unfold padRightOf; rw [hEqMaxX, max_eq_right hmaxX]; simp
  have hcore : warpPerspectivePaddedCore warpP src dst M flags bm bv
      = (copyMakeBorder dst 0 0 0 0 bm bv,
         warpP src (perspShiftedTransf (normalize3 M) 0 0)
           ((copyMakeBorder dst 0 0 0 0 bm bv).width,
            (copyMakeBorder dst 0 0 0 0 bm bv).height) flags bm bv) := by
    simp only [warpPerspectivePaddedCore, hstep]
    rw [hpb, hpr, hax, hay]
    rfl
  have hcw : (copyMakeBorder dst 0 0 0 0 bm bv).width = dst.width := by
    simp [copyMakeBorder]
  have hch : (copyMakeBorder dst 0 0 0 0 bm bv).height = dst.height := by
    simp [copyMakeBorder]
  refine ⟨?_, ?_, ?_, ?_, ?_, ?_⟩
  · rw [hstep]; exact hax
  · rw [hstep]; exact hay
  · rw [hcore]; exact hch
  · rw [hcore]; exact hcw
  · intro y x hy hx
    rw [hcore]
    simp only [copyMakeBorder]
    rw [if_pos (by omega : (0 : Nat) ≤ y ∧ y < 0 + dst.height
      ∧ (0 : Nat) ≤ x ∧ x < 0 + dst.width)]
    simp
  · rw [hcore, hcw, hch]
    exact hwarp _ _ _ _ (fun i j hi hj => shifted_cross M h22 i j hi hj)

/-- No-op padding for the affine variant when all projected corners lie inside the destination box. -/
lemma aff_noop_aux (warpA : WarpFn) (src dst : Image) (A : Mat) (flags : ℤ)
    (bm : BorderMode) (bv : ℚ)
    (hA : A.rows = 2 ∧ A.cols = 3)
    (hflags : ¬(flags = WARP_INVERSE_MAP ∨ flags = INTER_LINEAR + WARP_INVERSE_MAP
        ∨ flags = INTER_NEAREST + WARP_INVERSE_MAP))
    (hin00 : insideBox (affX A 0 0) (affY A 0 0) dst.width dst.height)
    (hin10 : insideBox (affX A src.width 0) (affY A src.width 0)
      dst.width dst.height)
    (hin11 : insideBox (affX A src.width src.height)
      (affY A src.width src.height) dst.width dst.height)
    (hin01 : insideBox (affX A 0 src.height) (affY A 0 src.height)
      dst.width dst.height) :
    affAnchorX (affFlagsStep A flags).1 src.width src.height = 0 ∧
    affAnchorY (affFlagsStep A flags).1 src.width src.height = 0 ∧
    (warpAffinePaddedCore warpA src dst A flags bm bv).1.height = dst.height ∧
    (warpAffinePaddedCore warpA src dst A flags bm bv).1.width = dst.width ∧
    (∀ y x, y < dst.height → x < dst.width →
      (warpAffinePaddedCore warpA src dst A flags bm bv).1.pixel y x
        = dst.pixel y x) ∧
    (warpAffinePaddedCore warpA src dst A flags bm bv).2
      = warpA src A (dst.width, dst.height) flags bm bv := by
  have hstep : affFlagsStep A flags = (A, flags) := by
    unfold affFlagsStep; rw [if_neg hflags]
  have hminX : 0 ≤ affMinX A src.width src.height := by
    apply Int.le_floor.mpr
    push_cast
    exact le_min hin00.1 (le_min hin10.1 (le_min hin11.1 hin01.1))
  have hminY : 0 ≤ affMinY A src.width src.height := by
    apply Int.le_floor.mpr
    push_cast
    exact le_min hin00.2.2.1 (le_min hin10.2.2.1 (le_min hin11.2.2.1 hin01.2.2.1))
  have hmaxX : affMaxX A src.width src.height ≤ (dst.width : ℤ) := by
    apply Int.ceil_le.mpr
    push_cast
    exact max_le hin00.2.1 (max_le hin10.2.1 (max_le hin11.2.1 hin01.2.1))
  have hmaxY : affMaxY A src.width src.height ≤ (dst.height : ℤ) := by
    apply Int.ceil_le.mpr
    push_cast
    exact max_le hin00.2.2.2 (max_le hin10.2.2.2 (max_le hin11.2.2.2 hin01.2.2.2))
  have hax : affAnchorX A src.width src.height = 0 := by
    unfold affAnchorX; rw [if_neg (not_lt.mpr hminX)]
  have hay : affAnchorY A src.width src.height = 0 := by
    unfold affAnchorY; rw [if_neg (not_lt.mpr hminY)]
  have hpb : (padBottomOf (affMaxY A src.width src.height)
      dst.height).toNat = 0 := by
    unfold padBottomOf; rw [max_eq_right hmaxY]; simp
  have hpr : (padRightOf (affMaxX A src.width src.height)
      dst.width).toNat = 0 := by
    unfold padRightOf; rw [max_eq_right hmaxX]; simp
  have hshift : affShiftedTransf A 0 0 = A := by
    obtain ⟨r, c, e⟩ := A
    obtain ⟨h1, h2⟩ := hA
    subst h1
    subst h2
    show Mat.mk 2 3 _ = Mat.mk 2 3 e
    congr 1
    funext i j
    simp
  have hcore : warpAffinePaddedCore warpA src dst A flags bm bv
      = (copyMakeBorder dst 0 0 0 0 bm bv,
         warpA src A
           ((copyMakeBorder dst 0 0 0 0 bm bv).width,
            (copyMakeBorder dst 0 0 0 0 bm bv).height) flags bm bv) := by
    simp only [warpAffinePaddedCore, hstep]
    rw [hpb, hpr, hax, hay, hshift]
    rfl
  have hcw : (copyMakeBorder dst 0 0 0 0 bm bv).width = dst.width := by
    simp [copyMakeBorder]
  have hch : (copyMakeBorder dst 0 0 0 0 bm bv).height = dst.height := by
    simp [copyMakeBorder]
  refine ⟨?_, ?_, ?_, ?_, ?_, ?_⟩
  · rw [hstep]; exact hax
  · rw [hstep]; exact hay
  · rw [hcore]; exact hch
  · rw [hcore]; exact hcw
  · intro y x hy hx
    rw [hcore]
    simp only [copyMakeBorder]
    rw [if_pos (by omega : (0 : Nat) ≤ y ∧ y < 0 + dst.height
      ∧ (0 : Nat) ≤ x ∧ x < 0 + dst.width)]
    simp
  · rw [hcore, hcw, hch]

/-- C8: for every accepted forward transform that maps all four source
corners inside `[0, dst_W] × [0, dst_H]`, both anchors are 0, the padded
destination equals the original destination pixel for pixel (and in size),
and the warped source is exactly the unpadded external warp primitive
applied to the same transform at the original destination canvas size —
for both variants (the perspective primitive is assumed to read its matrix
projectively on the 3×3 block, which scaling by `M[2,2]` preserves). -/
theorem noop_padding_matches_unpadded_warp
    (warpP warpA : WarpFn) (src dst : Image) (M A : Mat) (flags : ℤ)
    (bm : BorderMode) (bv : ℚ)
    (h22 : M.entry 2 2 ≠ 0)
    (hA : A.rows = 2 ∧ A.cols = 3)
    (hflags : ¬(flags = WARP_INVERSE_MAP ∨ flags = INTER_LINEAR + WARP_INVERSE_MAP
        ∨ flags = INTER_NEAREST + WARP_INVERSE_MAP))
    (hwarpP : ∀ m m' sz f, (∀ i j, i < 3 → j < 3 →
        m.entry i j * m'.entry 2 2 = m'.entry i j * m.entry 2 2) →
        warpP src m sz f bm bv = warpP src m' sz f bm bv)
    (hP00 : insideBox (perspX M 0 0) (perspY M 0 0) dst.width dst.height)
    (hP10 : insideBox (perspX M src.width 0) (perspY M src.width 0)
      dst.width dst.height)
    (hP11 : insideBox (perspX M src.width src.height)
      (perspY M src.width src.height) dst.width dst.height)
    (hP01 : insideBox (perspX M 0 src.height) (perspY M 0 src.height)
      dst.width dst.height)
    (hA00 : insideBox (affX A 0 0) (affY A 0 0) dst.width dst.height)
    (hA10 : insideBox (affX A src.width 0) (affY A src.width 0)
      dst.width dst.height)
    (hA11 : insideBox (affX A src.width src.height)
      (affY A src.width src.height) dst.width dst.height)
    (hA01 : insideBox (affX A 0 src.height) (affY A 0 src.height)
      dst.width dst.height) :
    (perspAnchorX (perspFlagsStep (normalize3 M) flags).1
        src.width src.height = 0 ∧
     perspAnchorY (perspFlagsStep (normalize3 M) flags).1
        src.width src.height = 0 ∧
     (warpPerspectivePaddedCore warpP src dst M flags bm bv).1.height
        = dst.height ∧
     (warpPerspectivePaddedCore warpP src dst M flags bm bv).1.width
        = dst.width ∧
     (∀ y x, y < dst.height → x < dst.width →
       (warpPerspectivePaddedCore warpP src dst M flags bm bv).1.pixel y x
         = dst.pixel y x) ∧
     (warpPerspectivePaddedCore warpP src dst M flags bm bv).2
        = warpP src M (dst.width, dst.height) flags bm bv) ∧
    (affAnchorX (affFlagsStep A flags).1 src.width src.height = 0 ∧
     affAnchorY (affFlagsStep A flags).1 src.width src.height = 0 ∧
     (warpAffinePaddedCore warpA src dst A flags bm bv).1.height
        = dst.height ∧
     (warpAffinePaddedCore warpA src dst A flags bm bv).1.width
        = dst.width ∧
     (∀ y x, y < dst.height → x < dst.width →
       (warpAffinePaddedCore warpA src dst A flags bm bv).1.pixel y x
         = dst.pixel y x) ∧
     (warpAffinePaddedCore warpA src dst A flags bm bv).2
        = warpA src A (dst.width, dst.height) flags bm bv) :=
  ⟨persp_noop_aux warpP src dst M flags bm bv h22 hflags hwarpP
      hP00 hP10 hP11 hP01,
   aff_noop_aux warpA src dst A flags bm bv hA hflags
      hA00 hA10 hA11 hA01⟩

/-- Witness for C8: identity transforms, 1×1 source inside a 2×2
destination — the warped-source output of the padded call is the direct
unpadded warp call at the destination's own size. -/
theorem noop_padding_matches_unpadded_warp_witness :
    (warpPerspectivePaddedCore testWarp testSrc testDst eyeM 1 .constant 0).2
      = testWarp testSrc eyeM (testDst.width, testDst.height) 1 .constant 0 ∧
    (warpAffinePaddedCore testWarp testSrc testDst eyeA 1 .constant 0).2
      = testWarp testSrc eyeA (testDst.width, testDst.height) 1 .constant 0 := by
  have h := noop_padding_matches_unpadded_warp testWarp testWarp testSrc
    testDst eyeM eyeA 1 .constant 0
    (by norm_num [eyeM])
    ⟨rfl, rfl⟩
    (by norm_num [INTER_LINEAR, INTER_NEAREST, WARP_INVERSE_MAP])
    (fun _ _ _ _ _ => rfl)
    (by norm_num [insideBox, perspX, perspY, perspW, eyeM, testSrc, testDst])
    (by norm_num [insideBox, perspX, perspY, perspW, eyeM, testSrc, testDst])
    (by norm_num [insideBox, perspX, perspY, perspW, eyeM, testSrc, testDst])
    (by norm_num [insideBox, perspX, perspY, perspW, eyeM, testSrc, testDst])
    (by norm_num [insideBox, affX, affY, eyeA, testSrc, testDst])
    (by norm_num [insideBox, affX, affY, eyeA, testSrc, testDst])
    (by norm_num [insideBox, affX, affY, eyeA, testSrc, testDst])
    (by norm_num [insideBox, affX, affY, eyeA, testSrc, testDst])
  exact ⟨h.1.2.2.2.2.2, h.2.2.2.2.2.2⟩
